import Mathlib

/-!
Shallow embedding of the UDP log viewer ingestion core
(`udp_log_utils.py`, `udp_listener.py`, `highlighter.py`, `main.py`)
and proofs about its filtering, pause buffering, retention trimming,
highlight resolution and listener shutdown behaviour.

Strings are modelled as `List Char`; Python's `re` compiled patterns are
modelled abstractly as a search function `List Char → Bool`, and the
fallible `re.compile` as a parameter `rc : List Char → Option (List Char → Bool)`
(`none` models `re.error`).
-/

namespace UdpViewer

/-- Python `str.isspace` / default `str.strip` whitespace class
(ASCII whitespace, the C1 separator controls, and the common Unicode
space characters). -/
def pyIsSpace (c : Char) : Bool :=
  let n := c.toNat
  (0x09 ≤ n && n ≤ 0x0d) || (0x1c ≤ n && n ≤ 0x1f) || n = 0x20 ||
  n = 0x85 || n = 0xa0 || n = 0x1680 || (0x2000 ≤ n && n ≤ 0x200a) ||
  n = 0x2028 || n = 0x2029 || n = 0x202f || n = 0x205f || n = 0x3000

/-- Python `text.strip()`: drop whitespace from both ends. -/
def pyStrip (l : List Char) : List Char :=
  ((l.dropWhile pyIsSpace).reverse.dropWhile pyIsSpace).reverse

/-- Python `text.split(sep)` for a one-character separator: splits on every
occurrence, keeping empty segments. -/
def pySplit (sep : Char) : List Char → List (List Char)
  | [] => [[]]
  | c :: rest =>
    let r := pySplit sep rest
    if c = sep then [] :: r
    else
      match r with
      | s :: ss => (c :: s) :: ss
      | [] => [[c]]

/-- Boolean prefix test used to express substring containment. -/
def startsWith : List Char → List Char → Bool
  | _, [] => true
  | [], _ :: _ => false
  | a :: as, b :: bs => (a = b) && startsWith as bs

/-- Python `needle in haystack` for strings: contiguous-substring containment. -/
def pyContains (haystack needle : List Char) : Bool :=
  match haystack with
  | [] => startsWith [] needle
  | _ :: rest => startsWith haystack needle || pyContains rest needle

/-- Token parsing of `udp_log_utils._parse_tokens`: split the pattern text on
`;`, strip each token, keep the non-empty ones. -/
def parse_tokens (text : List Char) : List (List Char) :=
  ((pySplit ';' text).map pyStrip).filter (fun t => t ≠ [])

/-- A compiled matcher: the Python code stores either a plain string
(substring mode) or a compiled `re` pattern; the latter is modelled by its
`search`-anywhere function. -/
inductive Matcher where
  | lit (s : List Char)
  | regex (search : List Char → Bool)

/-- A regex compiler: `some f` models a successful `re.compile` whose
`search(line)` truth value is `f line`; `none` models `re.error`. -/
def RegexCompiler : Type := List Char → Option (List Char → Bool)

/-- The `for t in tokens: try re.compile ... except re.error: pass` loop of
`compile_patterns` in Regex mode: failing tokens are skipped, surviving
tokens are kept in order. -/
def compileRegexTokens (rc : RegexCompiler) : List (List Char) → List Matcher
  | [] => []
  | t :: ts =>
    match rc t with
    | some f => Matcher.regex f :: compileRegexTokens rc ts
    | none => compileRegexTokens rc ts

/-- Embedding of `udp_log_utils.compile_patterns`: parse tokens; in
`"Regex"` mode compile each token (dropping failures), otherwise use the
tokens themselves as literal matchers. -/
def compile_patterns (rc : RegexCompiler) (text : List Char) (mode : List Char) :
    List Matcher :=
  let tokens := parse_tokens text
  if tokens = [] then []
  else if mode = "Regex".toList then compileRegexTokens rc tokens
  else tokens.map Matcher.lit

/-- How one matcher is tested against a line in `main._match_all` (and in
`udp_log_utils.match_include` / `match_exclude` / `highlighter._rule_matches`):
a string by containment, a compiled pattern by `search` anywhere. -/
def matcherMatches (line : List Char) : Matcher → Bool
  | Matcher.lit s => pyContains line s
  | Matcher.regex f => f line

/-- Embedding of `main._match_all`: AND over the matchers of one slot. -/
def match_all (line : List Char) (patterns : List Matcher) : Bool :=
  patterns.all (matcherMatches line)

/-- Embedding of `main._match_include_slots`: vacuously true with no active
slot, otherwise AND of `match_all` across the active slots. -/
def match_include_slots (slots : List (List Matcher)) (line : List Char) : Bool :=
  if slots.isEmpty then true
  else slots.all (match_all line)

/-- Embedding of `main._match_exclude_slots`: OR of `match_all` across the
active slots (false when none is active). -/
def match_exclude_slots (slots : List (List Matcher)) (line : List Char) : Bool :=
  slots.any (match_all line)

/-- One rule slot as configured in the UI (`main.PatternSlot`). -/
structure PatternSlot where
  pattern : List Char
  mode : List Char
  color : List Char

/-- Embedding of `main._compile_slot_patterns`: slots with blank pattern text
are skipped, the rest are compiled, and slots whose compilation yields no
matcher at all are skipped as well. -/
def compile_slot_patterns (rc : RegexCompiler) (slots : List PatternSlot) :
    List (List Matcher) :=
  slots.filterMap (fun s =>
    if pyStrip s.pattern = [] then none
    else if (compile_patterns rc s.pattern s.mode).isEmpty then none
    else some (compile_patterns rc s.pattern s.mode))

/-- The filtering stage of `main._on_line_received` (lines 1142-1145): a line
is forwarded past filtering iff the include slots accept it and no exclude
slot matches it. -/
def passes_filter_stage (filterSlots excludeSlots : List (List Matcher))
    (line : List Char) : Bool :=
  match_include_slots filterSlots line && !match_exclude_slots excludeSlots line

/-- ASCII lowercase of a string, Python `str.lower` restricted to the names
used by the palette. -/
def pyLower (l : List Char) : List Char :=
  l.map Char.toLower

/-- Embedding of `highlighter._color_from_name`: strip and lowercase the
name; empty or `"none"` resolves to no color; otherwise look the name up in
the fixed palette (unknown names resolve to no color). -/
def color_from_name (name : List Char) : Option (List Char) :=
  let n := pyLower (pyStrip name)
  if n = [] ∨ n = "none".toList then none
  else if n = "red".toList then some "#e74c3c".toList
  else if n = "green".toList then some "#2ecc71".toList
  else if n = "blue".toList then some "#3498db".toList
  else if n = "orange".toList then some "#f39c12".toList
  else if n = "purple".toList then some "#9b59b6".toList
  else if n = "gray".toList then some "#95a5a6".toList
  else none

/-- Embedding of `highlighter.HighlightRule`. -/
structure HighlightRule where
  pattern_text : List Char
  mode : List Char
  color_name : List Char
  compiled : List Matcher

/-- Embedding of `HighlightRule.create`: parse the tokens and compile them
(the token compilation in `highlighter.py` is the same split/trim/compile
logic as `udp_log_utils.compile_patterns`). -/
def HighlightRule.create (rc : RegexCompiler) (pt mode cn : List Char) :
    HighlightRule :=
  { pattern_text := pt, mode := mode, color_name := cn,
    compiled := compile_patterns rc pt mode }

/-- Embedding of `highlighter._rule_matches`: an empty compiled list matches
nothing; otherwise AND over the compiled matchers. -/
def rule_matches (line : List Char) (compiled : List Matcher) : Bool :=
  if compiled.isEmpty then false
  else match_all line compiled

/-- Embedding of `main._rebuild_highlight_rules`: slots with blank pattern
text or color `"none"` (case-insensitively, after stripping) are skipped;
the rest become highlight rules in slot order. -/
def rebuild_highlight_rules (rc : RegexCompiler) (slots : List PatternSlot) :
    List HighlightRule :=
  slots.filterMap (fun s =>
    if pyStrip s.pattern = [] then none
    else if pyLower (pyStrip s.color) = "none".toList then none
    else some (HighlightRule.create rc s.pattern s.mode s.color))

/-- The scan inside `LogHighlighter.highlightBlock`: first rule whose color
resolves and whose compiled tokens match wins; rules whose color does not
resolve are skipped. -/
def first_rule_color (line : List Char) : List HighlightRule → Option (List Char)
  | [] => none
  | r :: rest =>
    match color_from_name r.color_name with
    | none => first_rule_color line rest
    | some c =>
      if rule_matches line r.compiled then some c
      else first_rule_color line rest

/-- Embedding of `LogHighlighter.highlightBlock`'s color decision: with no
rules or empty text nothing is highlighted, otherwise the first matching
active rule's color is applied. -/
def highlight_block_color (rules : List HighlightRule) (line : List Char) :
    Option (List Char) :=
  if rules.isEmpty || line.isEmpty then none
  else first_rule_color line rules

/-! Listener (`udp_listener.py`). -/

/-- Python `text.replace(crlf, lf)`: left-to-right, non-overlapping
replacement of the two-character sequence CR LF by LF. -/
def replCRLF : List Char → List Char
  | [] => []
  | '\r' :: '\n' :: rest => '\n' :: replCRLF rest
  | c :: rest => c :: replCRLF rest

/-- Python `text.replace(cr, lf)`: every remaining CR becomes LF. -/
def replCR (l : List Char) : List Char :=
  l.map (fun c => if c = '\r' then '\n' else c)

/-- Embedding of `UdpListenerThread._split_lines`: normalize CRLF and CR to
LF, split on LF, and drop the segments that are empty after stripping. -/
def split_lines (text : List Char) : List (List Char) :=
  (pySplit '\n' (replCR (replCRLF text))).filter (fun p => pyStrip p ≠ [])

/-- The Unicode replacement character U+FFFD. -/
def replChar : Char := Char.ofNat 0xfffd

/-- Is the byte a UTF-8 continuation byte (0x80..0xbf)? -/
def isContByte (b : Nat) : Bool := 0x80 ≤ b && b ≤ 0xbf

/-- Valid range of the first continuation byte of a three-byte sequence,
given its lead byte (excludes overlong encodings and surrogates). -/
def cont3ok (lead b2 : Nat) : Bool :=
  if lead = 0xe0 then 0xa0 ≤ b2 && b2 ≤ 0xbf
  else if lead = 0xed then 0x80 ≤ b2 && b2 ≤ 0x9f
  else isContByte b2

/-- Valid range of the first continuation byte of a four-byte sequence,
given its lead byte (excludes overlong encodings and values above U+10FFFF). -/
def cont4ok (lead b2 : Nat) : Bool :=
  if lead = 0xf0 then 0x90 ≤ b2 && b2 ≤ 0xbf
  else if lead = 0xf4 then 0x80 ≤ b2 && b2 ≤ 0x8f
  else isContByte b2

/-- One decoding step of UTF-8 with replacement: given the lead byte and the
remaining bytes, the character produced and how many further bytes the step
consumes; each maximal subpart of an ill-formed sequence yields one U+FFFD.
-/
def utf8step (b : Nat) (rest : List Nat) : Char × Nat :=
  if b ≤ 0x7f then (Char.ofNat b, 0)
  else if 0xc2 ≤ b && b ≤ 0xdf then
    match rest with
    | [] => (replChar, 0)
    | b2 :: _ =>
      if isContByte b2 then (Char.ofNat ((b - 0xc0) * 0x40 + (b2 - 0x80)), 1)
      else (replChar, 0)
  else if 0xe0 ≤ b && b ≤ 0xef then
    match rest with
    | [] => (replChar, 0)
    | b2 :: r2 =>
      if cont3ok b b2 then
        match r2 with
        | [] => (replChar, 1)
        | b3 :: _ =>
          if isContByte b3 then
            (Char.ofNat (((b - 0xe0) * 0x40 + (b2 - 0x80)) * 0x40 + (b3 - 0x80)), 2)
          else (replChar, 1)
      else (replChar, 0)
  else if 0xf0 ≤ b && b ≤ 0xf4 then
    match rest with
    | [] => (replChar, 0)
    | b2 :: r2 =>
      if cont4ok b b2 then
        match r2 with
        | [] => (replChar, 1)
        | b3 :: r3 =>
          if isContByte b3 then
            match r3 with
            | [] => (replChar, 2)
            | b4 :: _ =>
              if isContByte b4 then
                (Char.ofNat ((((b - 0xf0) * 0x40 + (b2 - 0x80)) * 0x40 +
                  (b3 - 0x80)) * 0x40 + (b4 - 0x80)), 3)
              else (replChar, 2)
          else (replChar, 1)
      else (replChar, 0)
  else (replChar, 0)

/-- Fuel-driven decoding loop: each step consumes at least one byte, so fuel
equal to the input length never runs out. -/
def decodeGo : Nat → List Nat → List Char
  | _, [] => []
  | 0, _ :: _ => []
  | fuel + 1, b :: rest =>
    let s := utf8step b rest
    s.1 :: decodeGo fuel (rest.drop s.2)

/-- Embedding of `data.decode(utf8, errors=replace)`: well-formed sequences
decode to their scalar value; ill-formed input degrades to replacement
characters (never fails). -/
def decode_utf8_replace (l : List Nat) : List Char :=
  decodeGo l.length l

/-- Events emitted by the listener thread (its four Qt signals). -/
inductive LEvent where
  | line (s : List Char)
  | status (s : List Char)
  | error (s : List Char)
  | stats (packets lines : Nat)
deriving DecidableEq

/-- Processing of one successfully received datagram in
`UdpListenerThread.run` (lines 100-113): bump the packet counter, decode,
split into lines, bump the line counter, emit one line event per segment in
order, then one stats event. -/
def process_datagram (packets lines : Nat) (data : List Nat) :
    Nat × Nat × List LEvent :=
  let packets2 := packets + 1
  let segs := split_lines (decode_utf8_replace data)
  let lines2 := lines + segs.length
  (packets2, lines2, segs.map LEvent.line ++ [LEvent.stats packets2 lines2])

/-- Outcome of one `recvfrom` call, with the stop-flag value the exception
handler observes; `benignErrno` is errno EBADF or EINVAL. -/
inductive RecvOutcome where
  | ok (data : List Nat)
  | oserror (stopSet : Bool) (benignErrno : Bool)
  | exn (stopSet : Bool)

/-- Outcome of one `select.select` call; for a failure, `stopSet` is the
stop-flag value the handler observes and `isEbadf` whether the exception is
an `OSError` with errno EBADF. -/
inductive SelectOutcome where
  | ready (recv : RecvOutcome)
  | empty
  | fail (stopSet : Bool) (isEbadf : Bool)

/-- One iteration of the receive loop: the stop flag observed by the
`while` condition, and what `select` (and then `recvfrom`) did. -/
structure LoopIter where
  stopAtTop : Bool
  sel : SelectOutcome

/-- Message of a surfaced `select` failure. -/
def selectFailMsg : List Char := "select failed".toList

/-- Message of a surfaced `recvfrom` failure. -/
def recvFailMsg : List Char := "recvfrom failed".toList

/-- Final status message emitted by the listener's `finally` block. -/
def stoppedMsg : List Char := "Listener stopped".toList

/-- One iteration of `UdpListenerThread.run`'s while loop: the events it
emits, and `some (packets, lines)` when the loop continues or `none` when it
exits (break, or the stop flag observed at the top). -/
def iter_step (packets lines : Nat) (it : LoopIter) :
    List LEvent × Option (Nat × Nat) :=
  if it.stopAtTop then ([], none)
  else
    match it.sel with
    | SelectOutcome.empty => ([], some (packets, lines))
    | SelectOutcome.fail stopSet isEbadf =>
      if stopSet || isEbadf then ([], none)
      else ([LEvent.error selectFailMsg], none)
    | SelectOutcome.ready r =>
      match r with
      | RecvOutcome.oserror stopSet benignErrno =>
        if stopSet || benignErrno then ([], none)
        else ([LEvent.error recvFailMsg], some (packets, lines))
      | RecvOutcome.exn stopSet =>
        if stopSet then ([], none)
        else ([LEvent.error recvFailMsg], some (packets, lines))
      | RecvOutcome.ok data =>
        let res := process_datagram packets lines data
        (res.2.2, some (res.1, res.2.1))

/-- Events emitted by the receive loop over a trace of iterations: once an
iteration exits the loop, the remaining trace is unreachable. -/
def loop_events (packets lines : Nat) : List LoopIter → List LEvent
  | [] => []
  | it :: rest =>
    match iter_step packets lines it with
    | (evs, none) => evs
    | (evs, some (p2, l2)) => evs ++ loop_events p2 l2 rest

/-- Events of one whole `run` with a successful bind: the two startup
status events, the loop's events, then the `finally` block's terminal
"Listener stopped" status. -/
def run_events (trace : List LoopIter) : List LEvent :=
  LEvent.status "Binding UDP".toList :: LEvent.status "Listening UDP".toList ::
    (loop_events 0 0 trace ++ [LEvent.status stoppedMsg])

/-! Consumer-side pipeline state (`main.MainWindow`). -/

/-- Capacity of the pause buffer (`deque(maxlen=2000)`, main.py line 160). -/
def PAUSE_BUFFER_MAXLEN : Nat := 2000

/-- `main.DEFAULT_MAX_LINES`. -/
def DEFAULT_MAX_LINES : Nat := 20000

/-- `main.DEFAULT_TRIM_CHUNK`. -/
def DEFAULT_TRIM_CHUNK : Nat := 2000

/-- Maximum items drained per flush tick (`drain_queue(..., max_items=300)`). -/
def FLUSH_BATCH : Nat := 300

/-- Embedding of `udp_log_utils.drain_queue`: pop up to `maxItems` items from
the front, returning them in order together with the remaining queue. -/
def drain_queue (q : List (List Char)) (maxItems : Nat) :
    List (List Char) × List (List Char) :=
  (q.take maxItems, q.drop maxItems)

/-- Appending to a `deque` with a maximum length: the new element goes to the
back and, when over capacity, the oldest entries fall off the front. -/
def dequeAppendCapped (cap : Nat) (b : List (List Char)) (x : List Char) :
    List (List Char) :=
  let b2 := b ++ [x]
  if cap < b2.length then b2.drop (b2.length - cap) else b2

/-- The pipeline-relevant state of `main.MainWindow`: compiled rule slots,
timestamp setting, listener/live-file state, pause state, the display queue
and the consumer-visible document with its retention counters. Paths are
abstract identifiers. -/
@[ext]
structure AppState where
  filterSlots : List (List Matcher)
  excludeSlots : List (List Matcher)
  timestampEnabled : Bool
  listenerOn : Bool
  liveLog : Option (List (List Char))
  livePath : Option Nat
  lastPath : Option Nat
  uiPaused : Bool
  pauseBuffer : List (List Char)
  pauseDropped : Nat
  queue : List (List Char)
  doc : List (List Char)
  maxLines : Nat
  trimmedTotal : Nat

/-- Embedding of `main._append_to_live_log`: a no-op when no handle is open,
otherwise append the line to the live file. -/
def append_to_live_log (st : AppState) (out : List Char) : AppState :=
  match st.liveLog with
  | none => st
  | some ls => { st with liveLog := some (ls ++ [out]) }

/-- Timestamp prefixing of an output line (`main._format_timestamp_prefix`
applied by `_on_line_received`): the formatted time, one space, the line. -/
def mark_ts (ts line : List Char) : List Char :=
  ts ++ (' ' :: line)

/-- Embedding of `main._on_line_received`: include filter, exclude filter,
optional timestamp prefix, unconditional live-file append while connected,
then pause buffering or the display queue. `ts` is the formatted timestamp
of this call (the wall clock is a parameter of the model). -/
def on_line_received (st : AppState) (ts : List Char) (line : List Char) :
    AppState :=
  if !(match_include_slots st.filterSlots line) then st
  else if match_exclude_slots st.excludeSlots line then st
  else
    let out := if st.timestampEnabled then mark_ts ts line else line
    let st1 := if st.listenerOn then append_to_live_log st out else st
    if st1.uiPaused then
      let d :=
        if PAUSE_BUFFER_MAXLEN ≤ st1.pauseBuffer.length then st1.pauseDropped + 1
        else st1.pauseDropped
      { st1 with
        pauseBuffer := dequeAppendCapped PAUSE_BUFFER_MAXLEN st1.pauseBuffer out,
        pauseDropped := d }
    else { st1 with queue := st1.queue ++ [out] }

/-- Feeding a list of lines through `_on_line_received` in arrival order. -/
def feed_lines (st : AppState) (ts : List Char) (lines : List (List Char)) :
    AppState :=
  lines.foldl (fun s l => on_line_received s ts l) st

/-- Embedding of `main._enforce_log_limit`: the effective cap is the
configured value (default when unset) clamped up to 1000; when the document
exceeds it, the oldest `min(DEFAULT_TRIM_CHUNK, excess)` lines are removed
and counted in `trimmedTotal`. The `remove_n <= 0` early return of the code
is unreachable in that branch and has no counterpart here. -/
def enforce_log_limit (st : AppState) : AppState :=
  let ml0 := if st.maxLines = 0 then DEFAULT_MAX_LINES else st.maxLines
  let ml := if ml0 < 1000 then 1000 else ml0
  let blocks := st.doc.length
  if blocks ≤ ml then st
  else
    let n := min DEFAULT_TRIM_CHUNK (blocks - ml)
    { st with doc := st.doc.drop n, trimmedTotal := st.trimmedTotal + n }

/-- Embedding of `main._flush_log_queue`: a no-op on an empty queue;
otherwise drain up to `FLUSH_BATCH` lines in FIFO order into the document
and then enforce the retention limit. -/
def flush_log_queue (st : AppState) : AppState :=
  if st.queue.isEmpty then st
  else
    let batch := (drain_queue st.queue FLUSH_BATCH).1
    let rest := (drain_queue st.queue FLUSH_BATCH).2
    enforce_log_limit { st with queue := rest, doc := st.doc ++ batch }

/-- The marker line enqueued by resume when lines were dropped while paused
(`main.on_pause_toggled`). -/
def resume_marker (dropped : Nat) : List Char :=
  "[UI/INFO] Resume: ".toList ++ Nat.toDigits 10 dropped ++
    " lines skipped while paused (showing latest tail).".toList

/-- The enqueue part of the resume branch of `main.on_pause_toggled`: snapshot
the buffer and drop counter, clear both, enqueue the marker when lines were
dropped, then enqueue every buffered line in arrival order. -/
def resume_enqueue (st : AppState) : AppState :=
  let dropped := st.pauseDropped
  let buffered := st.pauseBuffer
  let st1 := { st with uiPaused := false, pauseBuffer := [], pauseDropped := 0 }
  let st2 :=
    if 0 < dropped then { st1 with queue := st1.queue ++ [resume_marker dropped] }
    else st1
  { st2 with queue := st2.queue ++ buffered }

/-- The resume branch of `main.on_pause_toggled` (listener present, pause
button released): enqueue the buffered tail and immediately flush instead of
waiting for the next tick. -/
def on_pause_resume (st : AppState) : AppState :=
  flush_log_queue (resume_enqueue st)

/-- Embedding of `main._close_live_log`: retain the last live path for later
"save" requests, then drop the handle and the live path. -/
def close_live_log (st : AppState) : AppState :=
  { st with lastPath := st.livePath, liveLog := none, livePath := none }

/-- Source selection of `main.on_save_clicked`: prefer the live path when a
session is open, else the retained last-session path when that file exists;
the copy only happens when the chosen source exists, otherwise the visible
buffer is dumped (`none`). `ex` models `Path.exists`. -/
def save_source (ex : Nat → Bool) (st : AppState) : Option Nat :=
  let src : Option Nat :=
    match st.livePath with
    | some p => some p
    | none =>
      match st.lastPath with
      | some q => if ex q then some q else none
      | none => none
  match src with
  | some p => if ex p then some p else none
  | none => none

/-- Embedding of `main.on_save_clicked` as a state transition: it returns
which file was copied (`none` = fallback dump of the visible buffer) and
leaves the pipeline state unchanged — saving never consumes any path. -/
def on_save_clicked (ex : Nat → Bool) (st : AppState) : Option Nat × AppState :=
  (save_source ex st, st)

/-! Theorems. -/

/-- The byte payload of the C4 round-trip example, `A=1\r\nB=2\r\n` in
UTF-8/ASCII. -/
def c4payload : List Nat :=
  [0x41, 0x3d, 0x31, 0x0d, 0x0a, 0x42, 0x3d, 0x32, 0x0d, 0x0a]

/-- C4: every received datagram is decoded with lossy replacement, CRLF/CR
normalized to LF, split on LF with blank segments discarded; one line event
is emitted per remaining segment in order, and the (packets, lines) counters
are incremented and emitted once per datagram; the payload
`A=1\r\nB=2\r\n` yields exactly the line events `A=1` then `B=2` with
`packets + 1` and `lines + 2`. -/
theorem C4_datagram_roundtrip :
    ∀ (packets lines : Nat),
      (process_datagram packets lines c4payload =
        (packets + 1, lines + 2,
          [LEvent.line "A=1".toList, LEvent.line "B=2".toList,
           LEvent.stats (packets + 1) (lines + 2)])) ∧
      ∀ (data : List Nat),
        (process_datagram packets lines data).1 = packets + 1 ∧
        (process_datagram packets lines data).2.1 =
          lines + (split_lines (decode_utf8_replace data)).length ∧
        (process_datagram packets lines data).2.2 =
          (split_lines (decode_utf8_replace data)).map LEvent.line ++
            [LEvent.stats (packets + 1)
              (lines + (split_lines (decode_utf8_replace data)).length)] := by
  intro packets lines
  exact ⟨rfl, fun data => ⟨rfl, rfl, rfl⟩⟩

/-- C3: failures observed while the stop flag is set, or caused by the
closed socket (EBADF from select, EBADF/EINVAL from recvfrom), end the
receive loop without surfacing an error event, so a full run then emits
only its status events with the terminal "Listener stopped" last; a select
or recvfrom failure with the stop flag clear and no closed-socket errno is
surfaced as an error event. -/
theorem C3_shutdown_error_classification :
    ∀ (p l : Nat) (rest : List LoopIter),
      (∀ sel, loop_events p l (⟨true, sel⟩ :: rest) = []) ∧
      (∀ e, loop_events p l (⟨false, SelectOutcome.fail true e⟩ :: rest) = []) ∧
      (loop_events p l (⟨false, SelectOutcome.fail false true⟩ :: rest) = []) ∧
      (∀ b, loop_events p l
        (⟨false, SelectOutcome.ready (RecvOutcome.oserror true b)⟩ :: rest) = []) ∧
      (loop_events p l
        (⟨false, SelectOutcome.ready (RecvOutcome.oserror false true)⟩ :: rest) = []) ∧
      (loop_events p l
        (⟨false, SelectOutcome.ready (RecvOutcome.exn true)⟩ :: rest) = []) ∧
      (∀ e, run_events (⟨false, SelectOutcome.fail true e⟩ :: rest) =
        [LEvent.status "Binding UDP".toList, LEvent.status "Listening UDP".toList,
         LEvent.status stoppedMsg]) ∧
      (∀ b, run_events (⟨false, SelectOutcome.ready (RecvOutcome.oserror true b)⟩ :: rest) =
        [LEvent.status "Binding UDP".toList, LEvent.status "Listening UDP".toList,
         LEvent.status stoppedMsg]) ∧
      (run_events (⟨true, SelectOutcome.empty⟩ :: rest) =
        [LEvent.status "Binding UDP".toList, LEvent.status "Listening UDP".toList,
         LEvent.status stoppedMsg]) ∧
      (loop_events p l (⟨false, SelectOutcome.fail false false⟩ :: rest) =
        [LEvent.error selectFailMsg]) ∧
      (loop_events p l
        (⟨false, SelectOutcome.ready (RecvOutcome.oserror false false)⟩ :: rest) =
        LEvent.error recvFailMsg :: loop_events p l rest) ∧
      (loop_events p l
        (⟨false, SelectOutcome.ready (RecvOutcome.exn false)⟩ :: rest) =
        LEvent.error recvFailMsg :: loop_events p l rest) := by
  intro p l rest
  refine ⟨fun sel => rfl, fun e => rfl, rfl, fun b => rfl, rfl, rfl,
    fun e => rfl, fun b => rfl, rfl, rfl, rfl, rfl⟩

/-- A baseline pipeline state: no rules, no session, nothing buffered,
`maxLines` unset (0 models the falsy Python default). -/
def emptyState : AppState :=
  { filterSlots := [], excludeSlots := [], timestampEnabled := false,
    listenerOn := false, liveLog := none, livePath := none, lastPath := none,
    uiPaused := false, pauseBuffer := [], pauseDropped := 0, queue := [],
    doc := [], maxLines := 0, trimmedTotal := 0 }

/-- A document of 1001 lines with the retention cap configured to 1000. -/
def c5state : AppState :=
  { emptyState with doc := List.replicate 1001 ['x'], maxLines := 1000 }

set_option maxRecDepth 40000 in
/-- C5 counterexample: with `maxLines = 1000` and a 1001-line document, the
trim removes exactly 1 line and `trimmedTotal` increases by 1, not by 200 as
claimed. -/
theorem C5_trim_counterexample :
    (enforce_log_limit c5state).doc.length = 1000 ∧
    (enforce_log_limit c5state).trimmedTotal = 1 ∧
    ¬ (enforce_log_limit c5state).trimmedTotal = 200 := by
  refine ⟨by decide, by decide, by decide⟩

/-- C5 amended: the trim removes `min(DEFAULT_TRIM_CHUNK, excess)` oldest
lines and adds that amount to `trimmedTotal`; with `maxLines = 1000` the
1001st line therefore triggers a trim of exactly 1 oldest line (the chunk
size is the hard-coded `DEFAULT_TRIM_CHUNK = 2000`, and the excess is 1),
and `trimmedTotal` increases by 1. -/
theorem C5_trim_amended :
    ∀ (st : AppState), 1000 ≤ st.maxLines → st.maxLines < st.doc.length →
      (enforce_log_limit st).doc =
        st.doc.drop (min DEFAULT_TRIM_CHUNK (st.doc.length - st.maxLines)) ∧
      (enforce_log_limit st).trimmedTotal =
        st.trimmedTotal + min DEFAULT_TRIM_CHUNK (st.doc.length - st.maxLines) ∧
      (st.maxLines = 1000 → st.doc.length = 1001 →
        (enforce_log_limit st).doc = st.doc.drop 1 ∧
        (enforce_log_limit st).trimmedTotal = st.trimmedTotal + 1) := by
  intro st h1000 hover
  have hml0 : (if st.maxLines = 0 then DEFAULT_MAX_LINES else st.maxLines) =
      st.maxLines := by
    have : st.maxLines ≠ 0 := by omega
    simp [this]
  have hclamp : (if st.maxLines < 1000 then 1000 else st.maxLines) =
      st.maxLines := by
    have : ¬ st.maxLines < 1000 := by omega
    simp [this]
  have hnotle : ¬ st.doc.length ≤ st.maxLines := by omega
  refine ⟨?_, ?_, ?_⟩
  · simp only [enforce_log_limit, hml0, hclamp, hnotle, if_false]
  · simp only [enforce_log_limit, hml0, hclamp, hnotle, if_false]
  · intro hm hd
    have hmin : min DEFAULT_TRIM_CHUNK (st.doc.length - st.maxLines) = 1 := by
      rw [hm, hd]; decide
    constructor
    · simp only [enforce_log_limit, hml0, hclamp, hnotle, if_false, hmin]
    · simp only [enforce_log_limit, hml0, hclamp, hnotle, if_false, hmin]

set_option maxRecDepth 40000 in
/-- Witness for C5's amended theorem at the concrete 1001-line state. -/
theorem C5_trim_amended_witness :
    (enforce_log_limit c5state).doc = c5state.doc.drop 1 ∧
    (enforce_log_limit c5state).trimmedTotal = c5state.trimmedTotal + 1 :=
  (C5_trim_amended c5state (by decide) (by decide)).2.2 (by decide) (by decide)

/-- The state right after `_close_live_log` ended a session whose live file
was path 7. -/
def c9closed : AppState :=
  close_live_log { emptyState with livePath := some 7, liveLog := some [] }

/-- C9 counterexample: after the session closes, a first save copies the
retained path 7, and a second save on the resulting state still copies
path 7 — the retained path is not invalidated by the first request. -/
theorem C9_save_retention_counterexample :
    (on_save_clicked (fun _ => true) c9closed).1 = some 7 ∧
    (on_save_clicked (fun _ => true)
      (on_save_clicked (fun _ => true) c9closed).2).1 = some 7 :=
  ⟨rfl, rfl⟩

/-- C9 amended: after `close()` the last session path is retained for every
subsequent save request, not exactly one — a save never mutates the state,
and as long as no live session is open and the retained file exists, each
save request copies it. -/
theorem C9_save_retention_amended :
    ∀ (ex : Nat → Bool) (st : AppState) (p : Nat),
      (on_save_clicked ex st).2 = st ∧
      (close_live_log st).livePath = none ∧
      (close_live_log st).lastPath = st.livePath ∧
      (st.livePath = none → st.lastPath = some p → ex p = true →
        (on_save_clicked ex st).1 = some p) := by
  intro ex st p
  refine ⟨rfl, rfl, rfl, ?_⟩
  intro hlive hlast hex
  simp [on_save_clicked, save_source, hlive, hlast, hex]

/-- Witness for C9's amended theorem at the concrete closed-session state. -/
theorem C9_save_retention_amended_witness :
    (on_save_clicked (fun _ => true) c9closed).1 = some 7 :=
  (C9_save_retention_amended (fun _ => true) c9closed 7).2.2.2 rfl rfl rfl

/-- The always-failing regex compiler: models a pattern text every token of
which is rejected by `re.compile`. -/
def rcFailAll : RegexCompiler := fun _ => none

/-- C10: a filter or exclude slot whose pattern compiles to no matcher at
all is omitted from the compiled slot list (every compiled slot is
non-empty), so when every slot is blank or compiles to nothing the compiled
list is empty, the include check accepts every line and the exclude check
rejects none — a slot of solely invalid regex tokens blocks nothing. -/
theorem C10_ineffective_slot_omitted :
    ∀ (rc : RegexCompiler) (slots : List PatternSlot) (line : List Char),
      (∀ sc ∈ compile_slot_patterns rc slots, sc ≠ []) ∧
      ((∀ s ∈ slots, pyStrip s.pattern = [] ∨
          compile_patterns rc s.pattern s.mode = []) →
        compile_slot_patterns rc slots = [] ∧
        match_include_slots (compile_slot_patterns rc slots) line = true ∧
        match_exclude_slots (compile_slot_patterns rc slots) line = false) := by
  intro rc slots line
  constructor
  · intro sc hsc
    rcases List.mem_filterMap.mp hsc with ⟨s, _, hf⟩
    by_cases hb : pyStrip s.pattern = []
    · simp [hb] at hf
    · by_cases he : compile_patterns rc s.pattern s.mode = []
      · simp [hb, he] at hf
      · simp only [if_neg hb, List.isEmpty_iff, he, if_false,
          Option.some.injEq] at hf
        intro hnil
        exact he (hf.trans hnil)
  · intro hall
    have hempty : compile_slot_patterns rc slots = [] := by
      unfold compile_slot_patterns
      rw [List.filterMap_eq_nil_iff]
      intro s hs
      rcases hall s hs with hb | hc
      · simp [hb]
      · by_cases hb : pyStrip s.pattern = []
        · simp [hb]
        · simp [hb, hc]
    refine ⟨hempty, ?_, ?_⟩
    · rw [hempty]; rfl
    · rw [hempty]; rfl

/-- Witness for C10 at a slot whose only token is an uncompilable regex. -/
theorem C10_ineffective_slot_omitted_witness :
    compile_slot_patterns rcFailAll
      [⟨"[".toList, "Regex".toList, "None".toList⟩] = [] ∧
    match_include_slots
      (compile_slot_patterns rcFailAll
        [⟨"[".toList, "Regex".toList, "None".toList⟩]) "hello".toList = true ∧
    match_exclude_slots
      (compile_slot_patterns rcFailAll
        [⟨"[".toList, "Regex".toList, "None".toList⟩]) "hello".toList = false := by
  have h := (C10_ineffective_slot_omitted rcFailAll
    [⟨"[".toList, "Regex".toList, "None".toList⟩] "hello".toList).2
  exact h (by intro s hs; simp at hs; subst hs; right; rfl)

/-- A prefix of a list that `dropWhile` leaves unchanged is itself left
unchanged by `dropWhile`. -/
lemma dropWhile_eq_self_of_leading_part {p : Char → Bool} :
    ∀ {S A : List Char}, S <+: A → A.dropWhile p = A → S.dropWhile p = S := by
  intro S A hpre hA
  cases S with
  | nil => rfl
  | cons c S2 =>
    obtain ⟨t, ht⟩ := hpre
    have hpc : p c = false := by
      cases hpc3 : p c
      · rfl
      · exfalso
        rw [← ht, List.cons_append, List.dropWhile_cons, hpc3, if_pos rfl] at hA
        have hlen := congrArg List.length hA
        have hle := (List.dropWhile_suffix (l := S2 ++ t) p).length_le
        simp only [List.length_cons] at hlen
        omega
    rw [List.dropWhile_cons, hpc]
    simp

/-- Stripping is idempotent: a stripped token strips to itself. -/
lemma pyStrip_idem (l : List Char) : pyStrip (pyStrip l) = pyStrip l := by
  have hrw : ∀ m : List Char,
      pyStrip m = List.rdropWhile pyIsSpace (m.dropWhile pyIsSpace) :=
    fun m => rfl
  rw [hrw, hrw l]
  have h2 : ((l.dropWhile pyIsSpace).rdropWhile pyIsSpace).dropWhile pyIsSpace =
      (l.dropWhile pyIsSpace).rdropWhile pyIsSpace :=
    dropWhile_eq_self_of_leading_part ( List.rdropWhile_prefix _ _)
      (List.dropWhile_idempotent _ _)
  rw [h2]
  exact List.rdropWhile_idempotent _ _

/-- The Regex-mode token loop collects exactly the successfully compiled
tokens, in order. -/
lemma compileRegexTokens_eq_filterMap (rc : RegexCompiler) :
    ∀ ts : List (List Char),
      compileRegexTokens rc ts =
        ts.filterMap (fun t => (rc t).map Matcher.regex)
  | [] => rfl
  | t :: ts => by
    cases h : rc t <;>
      simp [compileRegexTokens, h, compileRegexTokens_eq_filterMap rc ts]

/-- C8: pattern compilation splits on `;`, trims tokens and drops empty
ones; Substring mode keeps every token as a literal matcher; Regex mode
compiles each token, silently omitting a token the compiler rejects while
the remaining tokens of the slot still apply (compilation is total and
never rejects the rule wholesale). -/
theorem C8_compile_patterns :
    ∀ (rc : RegexCompiler) (text : List Char),
      (parse_tokens text =
        ((pySplit ';' text).map pyStrip).filter (fun t => t ≠ [])) ∧
      (∀ t ∈ parse_tokens text, t ≠ [] ∧ pyStrip t = t) ∧
      (compile_patterns rc text "Substring".toList =
        (parse_tokens text).map Matcher.lit) ∧
      (compile_patterns rc text "Regex".toList =
        (parse_tokens text).filterMap (fun t => (rc t).map Matcher.regex)) ∧
      (∀ (t : List Char) (ts : List (List Char)), rc t = none →
        compileRegexTokens rc (t :: ts) = compileRegexTokens rc ts) := by
  intro rc text
  refine ⟨rfl, ?_, ?_, ?_, ?_⟩
  · intro t ht
    unfold parse_tokens at ht
    rcases List.mem_filter.mp ht with ⟨hmem, hne⟩
    rcases List.mem_map.mp hmem with ⟨u, _, hu⟩
    refine ⟨by simpa using hne, ?_⟩
    rw [← hu]
    exact pyStrip_idem u
  · by_cases h : parse_tokens text = []
    · simp [compile_patterns, h]
    · have hmode : ¬ ("Substring".toList = "Regex".toList) := by decide
      simp [compile_patterns, h, hmode]
  · by_cases h : parse_tokens text = []
    · simp [compile_patterns, h]
    · simp [compile_patterns, h, compileRegexTokens_eq_filterMap]
  · intro t ts h
    simp [compileRegexTokens, h]

/-- Witness for C8: a trimmed token of a concrete pattern text, and an
uncompilable token dropped with the rest of the slot unaffected. -/
theorem C8_compile_patterns_witness :
    ("a".toList ≠ [] ∧ pyStrip "a".toList = "a".toList) ∧
    compileRegexTokens rcFailAll ["x".toList] = compileRegexTokens rcFailAll [] :=
  ⟨(C8_compile_patterns rcFailAll " a ;; b".toList).2.1 "a".toList (by decide),
   (C8_compile_patterns rcFailAll " a ;; b".toList).2.2.2.2 "x".toList [] rfl⟩

/-- The highlighter scan returns the color of the first rule whose color
resolves and whose tokens match. -/
lemma first_rule_color_eq_find (line : List Char) :
    ∀ rules : List HighlightRule,
      first_rule_color line rules =
        (rules.find? (fun r => (color_from_name r.color_name).isSome &&
          rule_matches line r.compiled)).bind
          (fun r => color_from_name r.color_name)
  | [] => rfl
  | r :: rest => by
    cases hc : color_from_name r.color_name with
    | none =>
      rw [List.find?_cons_of_neg _ (by simp [hc])]
      simp [first_rule_color, hc, first_rule_color_eq_find line rest]
    | some c =>
      cases hm : rule_matches line r.compiled with
      | true =>
        rw [List.find?_cons_of_pos _ (by simp [hc, hm])]
        simp [first_rule_color, hc, hm]
      | false =>
        rw [List.find?_cons_of_neg _ (by simp [hc, hm])]
        simp [first_rule_color, hc, hm, first_rule_color_eq_find line rest]

/-- C6: on a non-empty line the resolved highlight color is that of the
first rule, in slot order, whose color resolves (pattern active, color not
"None") and whose compiled tokens all match; later rules are not
considered; and the rebuilt rule list contains exactly the compiled forms
of the active slots. -/
theorem C6_resolve_highlight :
    ∀ (rules : List HighlightRule) (line : List Char), line ≠ [] →
      (highlight_block_color rules line =
        (rules.find? (fun r => (color_from_name r.color_name).isSome &&
          rule_matches line r.compiled)).bind
          (fun r => color_from_name r.color_name)) ∧
      (∀ (r : HighlightRule) (rest : List HighlightRule) (c : List Char),
        color_from_name r.color_name = some c →
        rule_matches line r.compiled = true →
        highlight_block_color (r :: rest) line = some c) ∧
      (∀ (rc : RegexCompiler) (slots : List PatternSlot) (r : HighlightRule),
        r ∈ rebuild_highlight_rules rc slots →
        ∃ s ∈ slots, pyStrip s.pattern ≠ [] ∧
          pyLower (pyStrip s.color) ≠ "none".toList ∧
          r = HighlightRule.create rc s.pattern s.mode s.color) := by
  intro rules line hline
  have hempty : line.isEmpty = false := by
    cases line with
    | nil => exact absurd rfl hline
    | cons a t => rfl
  refine ⟨?_, ?_, ?_⟩
  · cases rules with
    | nil => rfl
    | cons r rest =>
      simp only [highlight_block_color, List.isEmpty_cons, hempty,
        Bool.or_false, Bool.false_eq_true, if_false]
      exact first_rule_color_eq_find line (r :: rest)
  · intro r rest c hc hm
    simp only [highlight_block_color, List.isEmpty_cons, hempty,
      Bool.or_false, Bool.false_eq_true, if_false]
    simp [first_rule_color, hc, hm]
  · intro rc slots r hr
    rcases List.mem_filterMap.mp hr with ⟨s, hs, hf⟩
    by_cases hb : pyStrip s.pattern = []
    · simp [hb] at hf
    · by_cases hcn : pyLower (pyStrip s.color) = "none".toList
      · simp [hb, hcn] at hf
      · simp only [hb, if_false, hcn, Option.some.injEq] at hf
        exact ⟨s, hs, hb, hcn, hf.symm⟩

/-- The two-slot highlight configuration of the C6 example: slot 0 colors
matching lines red, slot 1 colors the same lines blue. -/
def c6slots : List PatternSlot :=
  [⟨"A".toList, "Substring".toList, "Red".toList⟩,
   ⟨"A".toList, "Substring".toList, "Blue".toList⟩]

/-- Witness for C6: with both slots matching, the resolved color is slot
0's red, not slot 1's blue. -/
theorem C6_resolve_highlight_witness :
    "xAy".toList ≠ [] ∧
    highlight_block_color (rebuild_highlight_rules rcFailAll c6slots)
      "xAy".toList = some "#e74c3c".toList := by
  refine ⟨by decide, ?_⟩
  rw [(C6_resolve_highlight (rebuild_highlight_rules rcFailAll c6slots)
    "xAy".toList (by decide)).1]
  rfl

/-- C1: a line is forwarded past the filtering stage iff every active
filter slot matches it (vacuously, with zero active slots the include check
accepts every line) and no active exclude slot matches it, where a slot
matches when all of its compiled tokens match (a literal token by substring
containment, a regex token by a search anywhere); a rejected line leaves
the whole pipeline state unchanged (silent drop), while an accepted line is
forwarded to the queue or the pause buffer. -/
theorem C1_filter_forwarding :
    ∀ (fs es : List (List Matcher)) (line : List Char),
      (passes_filter_stage fs es line = true ↔
        ((∀ ms ∈ fs, ∀ m ∈ ms, matcherMatches line m = true) ∧
         ¬ ∃ ms ∈ es, ∀ m ∈ ms, matcherMatches line m = true)) ∧
      (match_include_slots [] line = true) ∧
      (∀ (st : AppState) (ts : List Char),
        st.filterSlots = fs → st.excludeSlots = es →
        (passes_filter_stage fs es line = false →
          on_line_received st ts line = st) ∧
        (passes_filter_stage fs es line = true →
          (st.uiPaused = false →
            (on_line_received st ts line).queue =
              st.queue ++ [if st.timestampEnabled then mark_ts ts line else line]) ∧
          (st.uiPaused = true →
            (on_line_received st ts line).pauseBuffer =
              dequeAppendCapped PAUSE_BUFFER_MAXLEN st.pauseBuffer
                (if st.timestampEnabled then mark_ts ts line else line)))) := by
  intro fs es line
  refine ⟨?_, ?_, ?_⟩
  · cases fs with
    | nil =>
      simp [passes_filter_stage, match_include_slots, match_exclude_slots,
        match_all, List.all_eq_true, List.any_eq_true]
    | cons a t =>
      simp [passes_filter_stage, match_include_slots, match_exclude_slots,
        match_all, List.all_eq_true, List.any_eq_true]
  · rfl
  · intro st ts hfs hes
    have hq1 : ∀ out, (if st.listenerOn then append_to_live_log st out
        else st).queue = st.queue := by
      intro out
      cases st.listenerOn <;> cases h : st.liveLog <;>
        simp [append_to_live_log, h]
    have hb1 : ∀ out, (if st.listenerOn then append_to_live_log st out
        else st).pauseBuffer = st.pauseBuffer := by
      intro out
      cases st.listenerOn <;> cases h : st.liveLog <;>
        simp [append_to_live_log, h]
    have hp1 : ∀ out, (if st.listenerOn then append_to_live_log st out
        else st).uiPaused = st.uiPaused := by
      intro out
      cases st.listenerOn <;> cases h : st.liveLog <;>
        simp [append_to_live_log, h]
    constructor
    · intro hp
      rw [passes_filter_stage] at hp
      by_cases hinc : match_include_slots fs line = true
      · have hexc : match_exclude_slots es line = true := by
          rw [hinc] at hp
          simpa using hp
        simp [on_line_received, hfs, hes, hinc, hexc]
      · have hinc2 : match_include_slots fs line = false :=
          Bool.eq_false_iff.mpr hinc
        simp [on_line_received, hfs, hes, hinc2]
    · intro hp
      rw [passes_filter_stage, Bool.and_eq_true] at hp
      have hinc := hp.1
      have hexc : match_exclude_slots es line = false := by
        have := hp.2
        simpa using this
      constructor
      · intro hpause
        simp only [on_line_received, hfs, hes, hinc, Bool.not_true,
          Bool.false_eq_true, if_false, hexc, hp1, hpause, hq1]
      · intro hpause
        simp only [on_line_received, hfs, hes, hinc, Bool.not_true,
          Bool.false_eq_true, if_false, hexc, hp1, hpause, if_true, hb1]

/-- Witness for C1: a line not containing the single filter slot's literal
token is dropped with the state unchanged. -/
theorem C1_filter_forwarding_witness :
    on_line_received
      { emptyState with filterSlots := [[Matcher.lit "B".toList]] }
      [] "A".toList =
      { emptyState with filterSlots := [[Matcher.lit "B".toList]] } :=
  ((C1_filter_forwarding [[Matcher.lit "B".toList]] [] "A".toList).2.2
    { emptyState with filterSlots := [[Matcher.lit "B".toList]] } []
    rfl rfl).1 (by rfl)

/-- C7: pausing does not change what reaches the live log file — for any
state, processing a line with the pause flag set writes exactly the same
live-file content as with it clear; a paused run leaves the display queue
untouched, an unpaused run leaves the pause buffer and drop counter
untouched, and every other pipeline field (rules, settings, paths, document,
retention counters) is unaffected in both runs. -/
theorem C7_pause_frame_effect :
    ∀ (st : AppState) (ts line : List Char),
      ((on_line_received { st with uiPaused := true } ts line).liveLog =
        (on_line_received { st with uiPaused := false } ts line).liveLog) ∧
      ((on_line_received { st with uiPaused := true } ts line).queue =
        st.queue) ∧
      ((on_line_received { st with uiPaused := false } ts line).pauseBuffer =
        st.pauseBuffer) ∧
      ((on_line_received { st with uiPaused := false } ts line).pauseDropped =
        st.pauseDropped) ∧
      (∀ b : Bool,
        (on_line_received { st with uiPaused := b } ts line).filterSlots =
          st.filterSlots ∧
        (on_line_received { st with uiPaused := b } ts line).excludeSlots =
          st.excludeSlots ∧
        (on_line_received { st with uiPaused := b } ts line).timestampEnabled =
          st.timestampEnabled ∧
        (on_line_received { st with uiPaused := b } ts line).listenerOn =
          st.listenerOn ∧
        (on_line_received { st with uiPaused := b } ts line).livePath =
          st.livePath ∧
        (on_line_received { st with uiPaused := b } ts line).lastPath =
          st.lastPath ∧
        (on_line_received { st with uiPaused := b } ts line).doc = st.doc ∧
        (on_line_received { st with uiPaused := b } ts line).maxLines =
          st.maxLines ∧
        (on_line_received { st with uiPaused := b } ts line).trimmedTotal =
          st.trimmedTotal) := by
  intro st ts line
  cases hinc : match_include_slots st.filterSlots line with
  | false =>
    refine ⟨?_, ?_, ?_, ?_, fun b => ?_⟩ <;>
      first
      | (cases b <;> simp [on_line_received, hinc])
      | simp [on_line_received, hinc]
  | true =>
    cases hexc : match_exclude_slots st.excludeSlots line with
    | true =>
      refine ⟨?_, ?_, ?_, ?_, fun b => ?_⟩ <;>
        first
        | (cases b <;> simp [on_line_received, hinc, hexc])
        | simp [on_line_received, hinc, hexc]
    | false =>
      cases hon : st.listenerOn with
      | false =>
        refine ⟨?_, ?_, ?_, ?_, fun b => ?_⟩ <;>
          first
          | (cases b <;> simp [on_line_received, hinc, hexc, hon])
          | simp [on_line_received, hinc, hexc, hon]
      | true =>
        cases hll : st.liveLog with
        | none =>
          refine ⟨?_, ?_, ?_, ?_, fun b => ?_⟩ <;>
            first
            | (cases b <;>
                simp [on_line_received, hinc, hexc, hon, append_to_live_log, hll])
            | simp [on_line_received, hinc, hexc, hon, append_to_live_log, hll]
        | some ls =>
          refine ⟨?_, ?_, ?_, ?_, fun b => ?_⟩ <;>
            first
            | (cases b <;>
                simp [on_line_received, hinc, hexc, hon, append_to_live_log, hll])
            | simp [on_line_received, hinc, hexc, hon, append_to_live_log, hll]

/-- Appending to the capped deque keeps exactly the most recent entries:
the result is the concatenation with the overflow dropped from the front. -/
lemma dequeAppendCapped_eq (b : List (List Char)) (x : List Char)
    (_h : b.length ≤ PAUSE_BUFFER_MAXLEN) :
    dequeAppendCapped PAUSE_BUFFER_MAXLEN b x =
      (b ++ [x]).drop (b.length + 1 - PAUSE_BUFFER_MAXLEN) := by
  unfold dequeAppendCapped
  by_cases hlt : PAUSE_BUFFER_MAXLEN < (b ++ [x]).length
  · rw [if_pos hlt]
    have hlen2 : (b ++ [x]).length - PAUSE_BUFFER_MAXLEN =
        b.length + 1 - PAUSE_BUFFER_MAXLEN := by
      simp [List.length_append]
    rw [hlen2]
  · rw [if_neg hlt]
    simp only [List.length_append, List.length_cons, List.length_nil,
      not_lt] at hlt
    have h0 : b.length + 1 - PAUSE_BUFFER_MAXLEN = 0 := by omega
    rw [h0, List.drop_zero]

/-- Length of a capped-deque append. -/
lemma dequeAppendCapped_length (b : List (List Char)) (x : List Char)
    (h : b.length ≤ PAUSE_BUFFER_MAXLEN) :
    (dequeAppendCapped PAUSE_BUFFER_MAXLEN b x).length =
      min (b.length + 1) PAUSE_BUFFER_MAXLEN := by
  rw [dequeAppendCapped_eq b x h]
  simp only [List.length_drop, List.length_append, List.length_cons,
    List.length_nil]
  omega

/-- Feeding accepted lines into a paused pipeline (no active rules, no
timestamping, listener off) accumulates the most recent
`PAUSE_BUFFER_MAXLEN` of buffer-plus-input and counts each overflow. -/
lemma feed_lines_paused (ts : List Char) :
    ∀ (L : List (List Char)) (st : AppState),
      st.uiPaused = true → st.filterSlots = [] → st.excludeSlots = [] →
      st.timestampEnabled = false → st.listenerOn = false →
      st.pauseBuffer.length ≤ PAUSE_BUFFER_MAXLEN →
      feed_lines st ts L =
        { st with
          pauseBuffer := (st.pauseBuffer ++ L).drop
            (st.pauseBuffer.length + L.length - PAUSE_BUFFER_MAXLEN),
          pauseDropped := st.pauseDropped +
            (st.pauseBuffer.length + L.length - PAUSE_BUFFER_MAXLEN) } := by
  intro L
  induction L with
  | nil =>
    intro st hpause hf he ht hl hlen
    have h0 : st.pauseBuffer.length + ([] : List (List Char)).length -
        PAUSE_BUFFER_MAXLEN = 0 := by
      simp only [List.length_nil]
      omega
    rw [h0]
    simp [feed_lines]
  | cons x L2 ih =>
    intro st hpause hf he ht hl hlen
    have hstep : on_line_received st ts x = { st with
        pauseBuffer := dequeAppendCapped PAUSE_BUFFER_MAXLEN st.pauseBuffer x,
        pauseDropped := if PAUSE_BUFFER_MAXLEN ≤ st.pauseBuffer.length
          then st.pauseDropped + 1 else st.pauseDropped } := by
      simp [on_line_received, hf, he, ht, hl, hpause, match_include_slots,
        match_exclude_slots]
    have hDlen := dequeAppendCapped_length st.pauseBuffer x hlen
    have hDle : (dequeAppendCapped PAUSE_BUFFER_MAXLEN st.pauseBuffer x).length ≤
        PAUSE_BUFFER_MAXLEN := by omega
    have hfeed : feed_lines st ts (x :: L2) =
        feed_lines (on_line_received st ts x) ts L2 := rfl
    rw [hfeed, hstep,
      ih _ (by simpa using hpause) (by simpa using hf) (by simpa using he)
        (by simpa using ht) (by simpa using hl) (by simpa using hDle)]
    dsimp only
    ext1
    case filterSlots => rfl
    case excludeSlots => rfl
    case timestampEnabled => rfl
    case listenerOn => rfl
    case liveLog => rfl
    case livePath => rfl
    case lastPath => rfl
    case uiPaused => rfl
    case queue => rfl
    case doc => rfl
    case maxLines => rfl
    case trimmedTotal => rfl
    case pauseBuffer =>
      rw [dequeAppendCapped_eq st.pauseBuffer x hlen]
      have hle1 : st.pauseBuffer.length + 1 - PAUSE_BUFFER_MAXLEN ≤
          (st.pauseBuffer ++ [x]).length := by
        simp only [List.length_append, List.length_cons, List.length_nil]
        omega
      rw [← List.drop_append_of_le_length hle1, List.drop_drop]
      have harith :
          st.pauseBuffer.length + 1 - PAUSE_BUFFER_MAXLEN +
            (((st.pauseBuffer ++ [x]).drop
              (st.pauseBuffer.length + 1 - PAUSE_BUFFER_MAXLEN)).length +
              L2.length - PAUSE_BUFFER_MAXLEN) =
          st.pauseBuffer.length + (x :: L2).length - PAUSE_BUFFER_MAXLEN := by
        simp only [List.length_drop, List.length_append, List.length_cons,
          List.length_nil]
        omega
      rw [harith, List.append_assoc, List.singleton_append]
    case pauseDropped =>
      dsimp only
      rw [dequeAppendCapped_eq st.pauseBuffer x hlen]
      simp only [List.length_drop, List.length_append, List.length_cons,
        List.length_nil]
      by_cases hc : PAUSE_BUFFER_MAXLEN ≤ st.pauseBuffer.length
      · rw [if_pos hc]
        omega
      · rw [if_neg hc]
        omega

/-- What the resume branch enqueues when lines were dropped: the marker then
the buffered tail, with the buffer and the counter cleared. -/
lemma resume_enqueue_spec (st : AppState) (h : 0 < st.pauseDropped) :
    (resume_enqueue st).queue =
      (st.queue ++ [resume_marker st.pauseDropped]) ++ st.pauseBuffer ∧
    (resume_enqueue st).pauseBuffer = [] ∧
    (resume_enqueue st).pauseDropped = 0 := by
  unfold resume_enqueue
  dsimp only
  rw [if_pos h]
  exact ⟨rfl, rfl, rfl⟩

/-- The paused baseline state of the C2 scenario. -/
def pausedStart : AppState := { emptyState with uiPaused := true }

/-- C2: feeding 2500 accepted lines into the paused pipeline retains
exactly the most recent 2000 in the buffer with `pauseDropped = 500`;
resuming enqueues one marker line stating the count 500, then the buffered
lines in arrival order, clears the buffer, resets the counter, and then
performs an immediate flush of the queue. -/
theorem C2_pause_buffer_resume :
    ∀ (L : List (List Char)), L.length = 2500 →
      (feed_lines pausedStart [] L).pauseBuffer = L.drop 500 ∧
      (feed_lines pausedStart [] L).pauseBuffer.length = 2000 ∧
      (feed_lines pausedStart [] L).pauseDropped = 500 ∧
      (resume_enqueue (feed_lines pausedStart [] L)).queue =
        resume_marker 500 :: L.drop 500 ∧
      (resume_enqueue (feed_lines pausedStart [] L)).pauseBuffer = [] ∧
      (resume_enqueue (feed_lines pausedStart [] L)).pauseDropped = 0 ∧
      on_pause_resume (feed_lines pausedStart [] L) =
        flush_log_queue (resume_enqueue (feed_lines pausedStart [] L)) := by
  intro L hL
  have hfeed := feed_lines_paused [] L pausedStart rfl rfl rfl rfl rfl
    (by simp [pausedStart, emptyState, PAUSE_BUFFER_MAXLEN])
  have harith : pausedStart.pauseBuffer.length + L.length -
      PAUSE_BUFFER_MAXLEN = 500 := by
    simp [pausedStart, emptyState, PAUSE_BUFFER_MAXLEN, hL]
  rw [harith] at hfeed
  have hbufpre : pausedStart.pauseBuffer ++ L = L := by
    simp [pausedStart, emptyState]
  rw [hbufpre] at hfeed
  have hbuf : (feed_lines pausedStart [] L).pauseBuffer = L.drop 500 := by
    rw [hfeed]
  have hdrop : (feed_lines pausedStart [] L).pauseDropped = 500 := by
    rw [hfeed]
    rfl
  have hlen : (feed_lines pausedStart [] L).pauseBuffer.length = 2000 := by
    rw [hbuf]
    simp [List.length_drop, hL]
  have hqueue : (feed_lines pausedStart [] L).queue = [] := by
    rw [hfeed]
    rfl
  have hpos : 0 < (feed_lines pausedStart [] L).pauseDropped := by
    rw [hdrop]
    decide
  have hres := resume_enqueue_spec (feed_lines pausedStart [] L) hpos
  refine ⟨hbuf, hlen, hdrop, ?_, hres.2.1, hres.2.2, rfl⟩
  rw [hres.1, hqueue, hdrop, hbuf]
  simp

/-- Witness for C2 with 2500 concrete one-character lines. -/
theorem C2_pause_buffer_resume_witness :
    (List.replicate 2500 (['a'] : List Char)).length = 2500 ∧
    (feed_lines pausedStart [] (List.replicate 2500 ['a'])).pauseDropped =
      500 :=
  ⟨by rw [List.length_replicate],
   (C2_pause_buffer_resume (List.replicate 2500 ['a'])
     (by rw [List.length_replicate])).2.2.1⟩

end UdpViewer
